import Mathlib

/-!
Verification development for the babytrack voice-to-structured-event pipeline.

The definitions below are shallow embeddings of the TypeScript sources:
  * `MicState`, `MicEvent`, `MicMachine`, `micTransition` embed
    `src/lib/MicStateMachine.ts` (the four-state machine with
    REQUESTING_PERMISSION; `transition` lines 52-170).
  * `handleResult` embeds `WakeWordListener.handleResult`
    (`src/lib/WakeWordListener.ts` lines 155-222); JavaScript string
    primitives (`toLowerCase`, `trim`, `includes`, `split`, `join`) are
    embedded over `List Char` / `List String` as `jsToLower`, `jsTrim`,
    `jsIncludes`, `jsSplit`, `joinSp`.
  * `recStep` embeds `WakeWordListener.handleEnd` /
    `restartRecognition` (lines 243-288).
  * `debouncePush` / `debounceFire` embed
    `StructuredVoiceLogger.debouncedProcess` (150 ms debounce).
  * `svlStep` embeds `StructuredVoiceLogger.tryProcessBuffer` /
    `processUtterance` / `parseResponse`, with the network resolution of
    the OpenAI call modelled as an explicit `resolve` step carrying the
    outcome, the shared mutable cancellation token modelled by attempt id,
    and the opaque externals (`JSON5.parse` and the fenced-code-block
    regex) taken as parameters `json5` / `fence`.
-/

set_option maxRecDepth 20000

/-! ## MicStateMachine (src/lib/MicStateMachine.ts) -/

inductive MicState where
  | DISABLED
  | REQUESTING_PERMISSION
  | SLEEPING
  | AWAKE
deriving DecidableEq

inductive MicEvent where
  | ENABLE
  | REQUEST_PERMISSION
  | PERMISSION_GRANTED
  | PERMISSION_DENIED
  | DISABLE
  | WAKE
  | SLEEP
deriving DecidableEq

structure MicMachine where
  state : MicState
  hasPermission : Bool
  error : Option String
  awakeningId : Nat
deriving DecidableEq

def initMic : MicMachine :=
  { state := .DISABLED, hasPermission := false, error := none, awakeningId := 0 }

/-- `MicStateMachine.transition` (lines 52-170): the switch over
(current state, event); unhandled pairs fall through unchanged. -/
def micTransition (m : MicMachine) (e : MicEvent) : MicMachine :=
  match m.state, e with
  | .DISABLED, .ENABLE =>
      { m with state := .REQUESTING_PERMISSION, error := none }
  | .REQUESTING_PERMISSION, .PERMISSION_GRANTED =>
      { m with state := .SLEEPING, hasPermission := true, error := none }
  | .REQUESTING_PERMISSION, .PERMISSION_DENIED =>
      { m with state := .DISABLED, hasPermission := false,
               error := some "Microphone permission denied" }
  | .REQUESTING_PERMISSION, .DISABLE =>
      { m with state := .DISABLED }
  | .SLEEPING, .DISABLE =>
      { m with state := .DISABLED }
  | .SLEEPING, .WAKE =>
      if m.hasPermission then
        { m with state := .AWAKE, awakeningId := m.awakeningId + 1, error := none }
      else
        { m with state := .DISABLED,
                 error := some "Cannot wake without microphone permission" }
  | .SLEEPING, .PERMISSION_DENIED =>
      { m with state := .DISABLED, hasPermission := false,
               error := some "Microphone permission denied" }
  | .AWAKE, .DISABLE =>
      { m with state := .DISABLED }
  | .AWAKE, .SLEEP =>
      { m with state := .SLEEPING }
  | .AWAKE, .PERMISSION_DENIED =>
      { m with state := .DISABLED, hasPermission := false,
               error := some "Microphone permission denied" }
  | _, _ => m

def runMic (es : List MicEvent) : MicMachine := es.foldl micTransition initMic

/-- The (state, event) pairs the `transition` switch handles explicitly;
every other pair falls through the switch unchanged. -/
def micHandled : MicState → MicEvent → Bool
  | .DISABLED, .ENABLE => true
  | .REQUESTING_PERMISSION, .PERMISSION_GRANTED => true
  | .REQUESTING_PERMISSION, .PERMISSION_DENIED => true
  | .REQUESTING_PERMISSION, .DISABLE => true
  | .SLEEPING, .DISABLE => true
  | .SLEEPING, .WAKE => true
  | .SLEEPING, .PERMISSION_DENIED => true
  | .AWAKE, .DISABLE => true
  | .AWAKE, .SLEEP => true
  | .AWAKE, .PERMISSION_DENIED => true
  | _, _ => false

/-! ## JavaScript string primitives over `List Char` -/

/-- JS `String.prototype.toLowerCase` (per-character lowering). -/
def jsToLower (s : List Char) : List Char := s.map Char.toLower

/-- JS `String.prototype.trim`: strip whitespace from both ends. -/
def jsTrim (s : List Char) : List Char :=
  ((s.dropWhile Char.isWhitespace).reverse.dropWhile Char.isWhitespace).reverse

/-- Index of the first occurrence of `pat` in a string, scanning left to
right (the search JS `includes` / `split` perform). -/
def firstOccur (pat : List Char) : List Char → Option Nat
  | [] => if pat.isPrefixOf ([] : List Char) then some 0 else none
  | c :: t =>
    if pat.isPrefixOf (c :: t) then some 0
    else (firstOccur pat t).map (· + 1)

/-- JS `s.includes(pat)`. -/
def jsIncludes (s pat : List Char) : Bool := (firstOccur pat s).isSome

/-- Fuelled worker for `jsSplit`; any `fuel > s.length` is enough, since a
non-empty pattern advances past at least one character per step. -/
def jsSplitF (pat : List Char) : Nat → List Char → List (List Char)
  | 0, s => [s]
  | fuel + 1, s =>
    match firstOccur pat s with
    | none => [s]
    | some i => s.take i :: jsSplitF pat fuel (s.drop (i + pat.length))

/-- JS `s.split(pat)`: repeatedly cut at the first occurrence of `pat`
(left-to-right, non-overlapping); an empty separator splits into single
characters. -/
def jsSplit (s pat : List Char) : List (List Char) :=
  if pat = [] then s.map (fun c => [c]) else jsSplitF pat (s.length + 1) s

/-- JS `array.join(' ')`. -/
def joinSp : List String → String
  | [] => ""
  | [x] => x
  | x :: xs => x ++ " " ++ joinSp xs

/-! ## WakeWordListener: recognizer configuration and transcript gate
(src/lib/WakeWordListener.ts) -/

/-- The four engine settings assigned in the `WakeWordListener`
constructor (lines 99-102). -/
structure RecognitionConfig where
  continuous : Bool
  interimResults : Bool
  maxAlternatives : Nat
  lang : String
deriving DecidableEq

/-- Lines 99-102: `continuous = true; interimResults = true;
maxAlternatives = 1; lang = 'en-US'`. -/
def wakeWordRecognitionConfig : RecognitionConfig :=
  { continuous := true, interimResults := true, maxAlternatives := 1, lang := "en-US" }

structure GateResult where
  mic : MicMachine
  forwarded : List (List Char)
deriving DecidableEq

/-- `WakeWordListener.handleResult` (lines 155-222): effects on the mic
state machine plus the list of utterance texts passed to `onUtterance`,
as a function of the wake/sleep words (already lowercased by the
constructor), the machine, the raw transcript and its `isFinal` flag. -/
def handleResult (wakeWord sleepWord : List Char) (mic : MicMachine)
    (rawTranscript : List Char) (isFinal : Bool) : GateResult :=
  let transcript := jsTrim (jsToLower rawTranscript)
  if !isFinal then { mic := mic, forwarded := [] }
  else if !(mic.state == .AWAKE) && jsIncludes transcript wakeWord then
    let mic' := micTransition mic .WAKE
    let parts := jsSplit transcript wakeWord
    let afterWake := jsTrim (parts.getLastD [])
    if !afterWake.isEmpty && !(jsIncludes afterWake sleepWord) then
      { mic := mic', forwarded := [afterWake] }
    else
      { mic := mic', forwarded := [] }
  else if (mic.state == .AWAKE) && jsIncludes transcript sleepWord then
    let parts := jsSplit transcript sleepWord
    let beforeSleep := jsTrim (parts.headD [])
    let fwd :=
      if !beforeSleep.isEmpty && !(jsIncludes beforeSleep wakeWord) then [beforeSleep]
      else []
    { mic := micTransition mic .SLEEP, forwarded := fwd }
  else if mic.state == .AWAKE then
    { mic := mic, forwarded := [transcript] }
  else if transcript == wakeWord then
    { mic := micTransition mic .WAKE, forwarded := [] }
  else if transcript == sleepWord then
    { mic := micTransition mic .SLEEP, forwarded := [] }
  else { mic := mic, forwarded := [] }

/-! ## WakeWordListener: end-of-session restart path (lines 243-288) -/

structure RecState where
  /-- `this.restartTimeout !== null`: a timer handle is stored (the code
  never nulls it when the timer fires, only when scheduling anew or in
  `stop()`). -/
  restartHandle : Bool
  /-- the stored timeout is scheduled and has not fired yet -/
  timerPending : Bool
  recognitionActive : Bool
  micDisabled : Bool
  desiredListening : Bool
  /-- number of times the restart callback reached `startRecognition` -/
  restarts : Nat
  /-- error messages raised through `onError` by this path -/
  raisedErrors : List String
deriving DecidableEq

/-- A running, enabled listener that wants to keep listening. -/
def recInit : RecState :=
  { restartHandle := false, timerPending := false, recognitionActive := true,
    micDisabled := false, desiredListening := true, restarts := 0, raisedErrors := [] }

inductive RecStep where
  /-- the engine's `onend` fires: `handleEnd` -/
  | endEvt
  /-- the 100 ms restart timeout fires (successful `startRecognition`) -/
  | timerFire
deriving DecidableEq

/-- `handleEnd` (lines 243-255) and the restart timeout callback inside
`restartRecognition` (lines 257-288), on the path where
`startRecognition` succeeds. -/
def recStep (s : RecState) : RecStep → RecState
  | .endEvt =>
    let s := { s with recognitionActive := false }
    if !s.micDisabled && !s.restartHandle && s.desiredListening then
      { s with restartHandle := true, timerPending := true }
    else s
  | .timerFire =>
    if s.timerPending then
      let s := { s with timerPending := false }
      if s.micDisabled || s.recognitionActive then s
      else { s with restarts := s.restarts + 1, recognitionActive := true }
    else s

def recRun (steps : List RecStep) : RecState := steps.foldl recStep recInit

/-! ## StructuredVoiceLogger: debounce timing (part_001 lines 78-98) -/

structure DebounceState where
  buffer : List String
  /-- absolute time at which `processTimeout` is due, if scheduled -/
  timerAt : Option Nat
  /-- texts handed to `processUtterance`, in order -/
  attempts : List String
deriving DecidableEq

def initDebounce : DebounceState := { buffer := [], timerAt := none, attempts := [] }

/-- The debounce timeout fires: `tryProcessBuffer` runs, creating one
extraction attempt on `textBuffer.join(' ')` when the buffer is
non-empty (the buffer itself is cleared only on a later success). -/
def debounceFire (s : DebounceState) : DebounceState :=
  if s.buffer.isEmpty then { s with timerAt := none }
  else { s with timerAt := none, attempts := s.attempts ++ [joinSp s.buffer] }

/-- Let the pending timer fire if it is due at time `now`. -/
def debounceDue (now : Nat) (s : DebounceState) : DebounceState :=
  match s.timerAt with
  | some tf => if tf ≤ now then debounceFire s else s
  | none => s

/-- The `onUtterance` handler (lines 71-74) plus `debouncedProcess`
(lines 78-86): push the fragment, clear any pending timeout, arm a fresh
150 ms timeout. -/
def debouncePush (now : Nat) (frag : String) (s : DebounceState) : DebounceState :=
  { s with buffer := s.buffer ++ [frag], timerAt := some (now + 150) }

/-- Deliver timestamped fragments in order, firing the debounce timer
whenever it comes due, and let a still-pending timer fire at the end. -/
def debounceRun : List (Nat × String) → DebounceState → DebounceState
  | [], s => match s.timerAt with | some _ => debounceFire s | none => s
  | (t, f) :: rest, s => debounceRun rest (debouncePush t f (debounceDue t s))

/-! ## StructuredVoiceLogger: buffer, cancellation token and extraction
attempts (part_001 lines 88-193, 247-261) -/

inductive NetOutcome where
  /-- the completion promise fulfils with the model's text content -/
  | fulfilled (response : String)
  /-- the completion promise rejects (network / service error) -/
  | rejected (errMsg : String)
deriving DecidableEq

/-- A callback emission: `onStructuredData` or `onError`. -/
inductive SVLEmit (α : Type) where
  | structured (v : α)
  | errored (msg : String)
deriving DecidableEq

structure SVLState (α : Type) where
  /-- `this.textBuffer` -/
  textBuffer : List String
  /-- attempt ids `0, 1, …, nextId-1` have been created; each attempt owns
  one `{cancelled: bool}` token, identified here by the attempt id -/
  nextId : Nat
  /-- ids whose token has `cancelled === true` -/
  cancelledIds : List Nat
  /-- `this.activeRequest`, by token id -/
  activeRequest : Option Nat
  /-- attempts whose completion call is in flight: (id, utterance text) -/
  pending : List (Nat × String)
  /-- callback log: (attempt id that emitted, emission) -/
  emits : List (Nat × SVLEmit α)
deriving DecidableEq

def initSVL {α : Type} : SVLState α :=
  { textBuffer := [], nextId := 0, cancelledIds := [], activeRequest := none,
    pending := [], emits := [] }

inductive SVLStep where
  /-- the `onUtterance` handler pushes a forwarded fragment (lines 71-74) -/
  | push (frag : String)
  /-- the debounce timeout fires: `tryProcessBuffer` runs up to the
  `await` of the completion call -/
  | fire
  /-- the completion call of in-flight attempt `id` resolves; the
  continuation of `processUtterance` and `tryProcessBuffer` runs -/
  | resolve (id : Nat) (outcome : NetOutcome)
deriving DecidableEq

/-- `StructuredVoiceLogger.parseResponse` (lines 247-261), with
`JSON5.parse` abstracted as `json5` and the fenced-code-block regex
extraction abstracted as `fence`. -/
def parseResponse {α : Type} (json5 : String → Except String α)
    (fence : String → Option String) (response : String) : Except String α :=
  match json5 ((fence response).getD response) with
  | .ok v => .ok v
  | .error msg =>
      .error ("Failed to parse LLM response: " ++ msg ++ "\nResponse was: " ++ response)

/-- One event-loop task of the logger. `truthy` is JS truthiness of the
parsed value (`if (result)` on line 100). -/
def svlStep {α : Type} (json5 : String → Except String α)
    (fence : String → Option String) (truthy : α → Bool)
    (s : SVLState α) : SVLStep → SVLState α
  | .push f => { s with textBuffer := s.textBuffer ++ [f] }
  | .fire =>
    -- tryProcessBuffer, lines 88-98: empty-buffer guard, cancel the
    -- active token, join the buffer, then processUtterance creates a
    -- fresh token, installs it as active and suspends on the network call
    if s.textBuffer = [] then s
    else
      let cancelled' := match s.activeRequest with
        | some a => a :: s.cancelledIds
        | none => s.cancelledIds
      { s with cancelledIds := cancelled',
               activeRequest := some s.nextId,
               nextId := s.nextId + 1,
               pending := s.pending ++ [(s.nextId, joinSp s.textBuffer)] }
  | .resolve id outcome =>
    if s.pending.any (fun p => p.1 == id) then
      let pending' := s.pending.filter (fun p => !(p.1 == id))
      -- the `finally` (lines 188-192) clears activeRequest iff it is
      -- still this attempt's token
      let active' := if s.activeRequest == some id then none else s.activeRequest
      match outcome with
      | .rejected msg =>
        -- the await throws; the rejection carries no `cancelled` flag, so
        -- tryProcessBuffer's catch (lines 103-107) surfaces it
        { s with pending := pending', activeRequest := active',
                 emits := s.emits ++ [(id, .errored msg)] }
      | .fulfilled response =>
        if s.cancelledIds.contains id then
          -- lines 155-159: throw the CancellableError; the catch sees
          -- `cancelled` and discards it silently
          { s with pending := pending', activeRequest := active' }
        else
          match parseResponse json5 fence response with
          | .ok v =>
            -- lines 173-181: onStructuredData fires; back in
            -- tryProcessBuffer a truthy result clears the buffer
            { s with pending := pending', activeRequest := active',
                     emits := s.emits ++ [(id, .structured v)],
                     textBuffer := if truthy v then [] else s.textBuffer }
          | .error m =>
            { s with pending := pending', activeRequest := active',
                     emits := s.emits ++ [(id, .errored m)] }
    else s

def svlRun {α : Type} (json5 : String → Except String α)
    (fence : String → Option String) (truthy : α → Bool)
    (steps : List SVLStep) (s : SVLState α) : SVLState α :=
  steps.foldl (svlStep json5 fence truthy) s

/-- The state invariant of the logger: every in-flight attempt other than
the one whose token sits in `activeRequest` has a cancelled token. -/
def SVLInvB {α : Type} (s : SVLState α) : Bool :=
  s.pending.all (fun p => s.cancelledIds.contains p.1 || s.activeRequest == some p.1)

/-- `true` when the step is neither a debounce firing nor a resolution of
attempt `n`. -/
def stepAvoids (n : Nat) : SVLStep → Bool
  | .fire => false
  | .resolve id _ => !(id == n)
  | .push _ => true

/-! ## Helper lemmas: MicStateMachine -/

theorem micTransition_awakeningId (m : MicMachine) (e : MicEvent) :
    (micTransition m e).awakeningId =
      m.awakeningId +
        (if m.state = .SLEEPING ∧ e = .WAKE ∧ m.hasPermission = true then 1 else 0) := by
  obtain ⟨s, p, err, aid⟩ := m
  cases s <;> cases e <;> cases p <;> simp [micTransition]

theorem micPermInv_step (m : MicMachine) (e : MicEvent)
    (h : (m.state = .SLEEPING ∨ m.state = .AWAKE) → m.hasPermission = true) :
    ((micTransition m e).state = .SLEEPING ∨ (micTransition m e).state = .AWAKE) →
      (micTransition m e).hasPermission = true := by
  obtain ⟨s, p, err, aid⟩ := m
  cases s <;> cases e <;> cases p <;> simp_all [micTransition]

theorem micPermInv_foldl (es : List MicEvent) (m : MicMachine)
    (h : (m.state = .SLEEPING ∨ m.state = .AWAKE) → m.hasPermission = true) :
    ((es.foldl micTransition m).state = .SLEEPING ∨
        (es.foldl micTransition m).state = .AWAKE) →
      (es.foldl micTransition m).hasPermission = true := by
  induction es generalizing m with
  | nil => simpa using h
  | cons e rest ih => exact ih _ (micPermInv_step m e h)

theorem runMic_hasPermission (es : List MicEvent)
    (h : (runMic es).state = .SLEEPING ∨ (runMic es).state = .AWAKE) :
    (runMic es).hasPermission = true :=
  micPermInv_foldl es initMic (by intro h'; rcases h' with h' | h' <;> simp [initMic] at h') h

theorem micTransition_wake_sleeping (m : MicMachine) (hs : m.state = .SLEEPING)
    (hp : m.hasPermission = true) : (micTransition m .WAKE).state = .AWAKE := by
  obtain ⟨s, p, err, aid⟩ := m
  simp_all [micTransition]

theorem micTransition_sleep_awake (m : MicMachine) (hs : m.state = .AWAKE) :
    (micTransition m .SLEEP).state = .SLEEPING := by
  obtain ⟨s, p, err, aid⟩ := m
  simp_all [micTransition]

/-- C2: for every event sequence the machine stays within the four
defined states, pairs the `transition` switch does not list leave the
machine unchanged (no event throws), `awakeningId` is non-decreasing
along every run, and it increments exactly on SLEEPING + WAKE with
permission and on no other transition. -/
theorem mic_machine_safety :
    (∀ es : List MicEvent,
        (runMic es).state = .DISABLED ∨ (runMic es).state = .REQUESTING_PERMISSION ∨
        (runMic es).state = .SLEEPING ∨ (runMic es).state = .AWAKE) ∧
    (∀ (m : MicMachine) (e : MicEvent), micHandled m.state e = false → micTransition m e = m) ∧
    (∀ (es : List MicEvent) (e : MicEvent),
        (runMic es).awakeningId ≤ (runMic (es ++ [e])).awakeningId) ∧
    (∀ (m : MicMachine) (e : MicEvent),
        (micTransition m e).awakeningId =
          m.awakeningId +
            (if m.state = .SLEEPING ∧ e = .WAKE ∧ m.hasPermission = true then 1 else 0)) := by
  refine ⟨?_, ?_, ?_, micTransition_awakeningId⟩
  · intro es
    cases h : (runMic es).state <;> simp [h]
  · intro m e h
    obtain ⟨s, p, err, aid⟩ := m
    cases s <;> cases e <;> simp_all [micHandled, micTransition]
  · intro es e
    rw [runMic, runMic, List.foldl_append]
    simp only [List.foldl_cons, List.foldl_nil]
    rw [micTransition_awakeningId]
    split <;> omega

/-- Witness for `mic_machine_safety`: the unlisted pair (DISABLED, SLEEP)
is a no-op on the initial machine. -/
theorem mic_machine_safety_witness :
    micHandled MicState.DISABLED MicEvent.SLEEP = false ∧
    micTransition initMic MicEvent.SLEEP = initMic :=
  ⟨by decide, mic_machine_safety.2.1 initMic MicEvent.SLEEP (by decide)⟩

/-! ## C4: interim results -/

/-- C4 counterexample: the constructor (line 100) sets `interimResults`
to `true`, so the claim that the flag is set to `false` is false. -/
theorem interim_results_flag_counterexample :
    ¬ (wakeWordRecognitionConfig.interimResults = false) := by decide

/-- C4 (amended): `interimResults` is set to `true` by the constructor;
nevertheless the transcript handler ignores every non-final result —
`handleResult` with `isFinal = false` changes no state and forwards
nothing — so downstream logic is driven only by final transcripts. -/
theorem interim_results_amended :
    wakeWordRecognitionConfig.interimResults = true ∧
    ∀ (w sw : List Char) (m : MicMachine) (t : List Char),
      handleResult w sw m t false = { mic := m, forwarded := [] } := by
  refine ⟨rfl, ?_⟩
  intro w sw m t
  simp [handleResult]

/-! ## Helper lemmas: handleResult branch reductions -/

theorem handleResult_asleep_wake_branch (w sw raw : List Char) (m : MicMachine)
    (hs : (m.state == MicState.AWAKE) = false)
    (hw : jsIncludes (jsTrim (jsToLower raw)) w = true) :
    (handleResult w sw m raw true).mic = micTransition m .WAKE ∧
    (handleResult w sw m raw true).forwarded =
      (if !(jsTrim ((jsSplit (jsTrim (jsToLower raw)) w).getLastD [])).isEmpty &&
          !(jsIncludes (jsTrim ((jsSplit (jsTrim (jsToLower raw)) w).getLastD [])) sw)
       then [jsTrim ((jsSplit (jsTrim (jsToLower raw)) w).getLastD [])] else []) := by
  constructor <;> simp [handleResult, hs, hw, apply_ite]

theorem handleResult_awake_sleep_branch (w sw raw : List Char) (m : MicMachine)
    (hs : m.state = MicState.AWAKE)
    (hw : jsIncludes (jsTrim (jsToLower raw)) sw = true) :
    handleResult w sw m raw true =
      { mic := micTransition m .SLEEP,
        forwarded :=
          if !(jsTrim ((jsSplit (jsTrim (jsToLower raw)) sw).headD [])).isEmpty &&
              !(jsIncludes (jsTrim ((jsSplit (jsTrim (jsToLower raw)) sw).headD [])) w)
          then [jsTrim ((jsSplit (jsTrim (jsToLower raw)) sw).headD [])] else [] } := by
  simp [handleResult, hs, hw]

/-! ## C5 and C6: wake / sleep phrase gating -/

/-- C5: a final transcript received while asleep (machine reachable in
SLEEPING) that contains the wake phrase moves the machine to AWAKE,
and the trailing segment of the split on the wake phrase is forwarded
exactly when it is non-empty after trimming and does not contain the
sleep phrase. -/
theorem wake_transcript_forwarding (w sw raw : List Char) (es : List MicEvent)
    (hs : (runMic es).state = .SLEEPING)
    (hw : jsIncludes (jsTrim (jsToLower raw)) w = true) :
    (handleResult w sw (runMic es) raw true).mic.state = .AWAKE ∧
    (handleResult w sw (runMic es) raw true).forwarded =
      (if !(jsTrim ((jsSplit (jsTrim (jsToLower raw)) w).getLastD [])).isEmpty &&
          !(jsIncludes (jsTrim ((jsSplit (jsTrim (jsToLower raw)) w).getLastD [])) sw)
       then [jsTrim ((jsSplit (jsTrim (jsToLower raw)) w).getLastD [])] else []) := by
  have hperm : (runMic es).hasPermission = true := runMic_hasPermission es (Or.inl hs)
  have hna : ((runMic es).state == MicState.AWAKE) = false := by rw [hs]; rfl
  have hb := handleResult_asleep_wake_branch w sw raw (runMic es) hna hw
  exact ⟨by rw [hb.1]; exact micTransition_wake_sleeping _ hs hperm, hb.2⟩

/-- Witness for `wake_transcript_forwarding`: while asleep, the transcript
"hey baby bottle sixty ml" with wake phrase "hey baby" wakes the machine
and forwards exactly "bottle sixty ml". -/
theorem wake_transcript_forwarding_witness :
    (runMic [MicEvent.ENABLE, MicEvent.PERMISSION_GRANTED]).state = MicState.SLEEPING ∧
    (handleResult ("hey baby".toList) ("sleep".toList)
        (runMic [MicEvent.ENABLE, MicEvent.PERMISSION_GRANTED])
        ("hey baby bottle sixty ml".toList) true).mic.state = MicState.AWAKE ∧
    (handleResult ("hey baby".toList) ("sleep".toList)
        (runMic [MicEvent.ENABLE, MicEvent.PERMISSION_GRANTED])
        ("hey baby bottle sixty ml".toList) true).forwarded = ["bottle sixty ml".toList] := by
  have h1 : (runMic [MicEvent.ENABLE, MicEvent.PERMISSION_GRANTED]).state = MicState.SLEEPING := by
    decide
  have h2 : jsIncludes (jsTrim (jsToLower ("hey baby bottle sixty ml".toList)))
      ("hey baby".toList) = true := by decide
  have h := wake_transcript_forwarding ("hey baby".toList) ("sleep".toList)
    ("hey baby bottle sixty ml".toList) [MicEvent.ENABLE, MicEvent.PERMISSION_GRANTED] h1 h2
  exact ⟨h1, h.1, by rw [h.2]; decide⟩

/-- C6: a final transcript received while awake that contains the sleep
phrase forwards the leading segment of the split on the sleep phrase
exactly when it is non-empty after trimming and does not contain the
wake phrase, and then moves the machine to SLEEPING. -/
theorem sleep_transcript_forwarding (w sw raw : List Char) (m : MicMachine)
    (hs : m.state = .AWAKE)
    (hw : jsIncludes (jsTrim (jsToLower raw)) sw = true) :
    (handleResult w sw m raw true).mic.state = .SLEEPING ∧
    (handleResult w sw m raw true).forwarded =
      (if !(jsTrim ((jsSplit (jsTrim (jsToLower raw)) sw).headD [])).isEmpty &&
          !(jsIncludes (jsTrim ((jsSplit (jsTrim (jsToLower raw)) sw).headD [])) w)
       then [jsTrim ((jsSplit (jsTrim (jsToLower raw)) sw).headD [])] else []) := by
  have hb := handleResult_awake_sleep_branch w sw raw m hs hw
  rw [hb]
  exact ⟨micTransition_sleep_awake m hs, rfl⟩

/-- Witness for `sleep_transcript_forwarding`: while awake, the transcript
"feeding done now sleep" with sleep phrase "sleep" forwards exactly
"feeding done now" and then moves the machine to SLEEPING. -/
theorem sleep_transcript_forwarding_witness :
    (runMic [MicEvent.ENABLE, MicEvent.PERMISSION_GRANTED, MicEvent.WAKE]).state =
      MicState.AWAKE ∧
    (handleResult ("hey baby".toList) ("sleep".toList)
        (runMic [MicEvent.ENABLE, MicEvent.PERMISSION_GRANTED, MicEvent.WAKE])
        ("feeding done now sleep".toList) true).mic.state = MicState.SLEEPING ∧
    (handleResult ("hey baby".toList) ("sleep".toList)
        (runMic [MicEvent.ENABLE, MicEvent.PERMISSION_GRANTED, MicEvent.WAKE])
        ("feeding done now sleep".toList) true).forwarded = ["feeding done now".toList] := by
  have h1 : (runMic [MicEvent.ENABLE, MicEvent.PERMISSION_GRANTED, MicEvent.WAKE]).state =
      MicState.AWAKE := by decide
  have h2 : jsIncludes (jsTrim (jsToLower ("feeding done now sleep".toList)))
      ("sleep".toList) = true := by decide
  have h := sleep_transcript_forwarding ("hey baby".toList) ("sleep".toList)
    ("feeding done now sleep".toList)
    (runMic [MicEvent.ENABLE, MicEvent.PERMISSION_GRANTED, MicEvent.WAKE]) h1 h2
  exact ⟨h1, h.1, by rw [h.2]; decide⟩

/-! ## Helper lemmas: firstOccur and jsSplit -/

theorem firstOccur_isPrefixOf (pat : List Char) (s : List Char) (i : Nat)
    (h : firstOccur pat s = some i) : pat.isPrefixOf (s.drop i) = true := by
  induction s generalizing i with
  | nil =>
    cases hp : pat.isPrefixOf ([] : List Char) with
    | true =>
      simp only [firstOccur, hp, if_true, Option.some.injEq] at h
      subst h; simpa using hp
    | false =>
      simp [firstOccur, hp] at h
  | cons c t ih =>
    cases hp : pat.isPrefixOf (c :: t) with
    | true =>
      simp only [firstOccur, hp, if_true, Option.some.injEq] at h
      subst h; simpa using hp
    | false =>
      simp only [firstOccur, hp, if_false, Bool.false_eq_true] at h
      rcases Option.map_eq_some'.1 h with ⟨j, hj, hij⟩
      subst hij
      simpa using ih j hj

theorem firstOccur_minimal (pat : List Char) (s : List Char) (i : Nat)
    (h : firstOccur pat s = some i) :
    ∀ j < i, pat.isPrefixOf (s.drop j) = false := by
  induction s generalizing i with
  | nil =>
    intro j hj
    cases hp : pat.isPrefixOf ([] : List Char) with
    | true =>
      simp only [firstOccur, hp, if_true, Option.some.injEq] at h
      omega
    | false =>
      simp [firstOccur, hp] at h
  | cons c t ih =>
    intro j hj
    cases hp : pat.isPrefixOf (c :: t) with
    | true =>
      simp only [firstOccur, hp, if_true, Option.some.injEq] at h
      omega
    | false =>
      simp only [firstOccur, hp, if_false, Bool.false_eq_true] at h
      rcases Option.map_eq_some'.1 h with ⟨k, hk, hik⟩
      subst hik
      cases j with
      | zero => simpa using hp
      | succ j' => simpa using ih k hk j' (by omega)

theorem firstOccur_decomp (pat : List Char) (s : List Char) (i : Nat)
    (h : firstOccur pat s = some i) :
    s = s.take i ++ pat ++ s.drop (i + pat.length) := by
  have hp := firstOccur_isPrefixOf pat s i h
  rcases List.isPrefixOf_iff_prefix.1 hp with ⟨u, hu⟩
  have hd : s.drop (i + pat.length) = u := by
    have h2 : (s.drop i).drop pat.length = u := by rw [← hu, List.drop_left]
    rw [← h2, List.drop_drop]
  rw [hd, List.append_assoc, hu]
  exact (List.take_append_drop i s).symm

theorem firstOccur_lt_length (pat : List Char) (s : List Char) (i : Nat)
    (hpat : pat ≠ []) (h : firstOccur pat s = some i) : i < s.length := by
  have hp := firstOccur_isPrefixOf pat s i h
  rcases List.isPrefixOf_iff_prefix.1 hp with ⟨u, hu⟩
  by_contra hi
  push_neg at hi
  have hnil : s.drop i = [] := List.drop_eq_nil_of_le hi
  rw [hnil] at hu
  exact hpat (List.append_eq_nil.1 hu).1

theorem jsIncludes_of_firstOccur (s pat : List Char) (i : Nat)
    (h : firstOccur pat s = some i) : jsIncludes s pat = true := by
  simp [jsIncludes, h]

theorem firstOccur_none_of_not_includes (s pat : List Char)
    (h : jsIncludes s pat = false) : firstOccur pat s = none := by
  cases hfo : firstOccur pat s with
  | none => rfl
  | some i => rw [jsIncludes, hfo] at h; simp at h

theorem getLastD_irrel {β : Type} (l : List β) (d d' : β) (h : l ≠ []) :
    l.getLastD d = l.getLastD d' := by
  cases l with
  | nil => exact absurd rfl h
  | cons a t => rfl

theorem jsSplitF_ne_nil (pat : List Char) (fuel : Nat) (s : List Char) :
    jsSplitF pat fuel s ≠ [] := by
  cases fuel with
  | zero => simp [jsSplitF]
  | succ n => cases hfo : firstOccur pat s <;> simp [jsSplitF, hfo]

theorem jsSplitF_main (pat : List Char) (hpat : pat ≠ []) (fuel : Nat) :
    ∀ s : List Char, s.length < fuel →
      jsIncludes ((jsSplitF pat fuel s).getLastD []) pat = false ∧
      (2 ≤ (jsSplitF pat fuel s).length →
        ∃ pre, s = pre ++ pat ++ (jsSplitF pat fuel s).getLastD []) ∧
      ((jsSplitF pat fuel s).length = 1 → (jsSplitF pat fuel s).getLastD [] = s) := by
  induction fuel with
  | zero => intro s hs; omega
  | succ n ih =>
    intro s hs
    cases hfo : firstOccur pat s with
    | none =>
      refine ⟨?_, ?_, ?_⟩ <;> simp [jsSplitF, hfo, jsIncludes]
    | some i =>
      have hplen : 1 ≤ pat.length := by
        cases pat with
        | nil => exact absurd rfl hpat
        | cons a t => simp
      have hlt := firstOccur_lt_length pat s i hpat hfo
      have hfuel' : (s.drop (i + pat.length)).length < n := by
        simp only [List.length_drop]
        omega
      obtain ⟨ihA, ihB, ihC⟩ := ih (s.drop (i + pat.length)) hfuel'
      have hne := jsSplitF_ne_nil pat n (s.drop (i + pat.length))
      have hsplit : jsSplitF pat (n + 1) s =
          s.take i :: jsSplitF pat n (s.drop (i + pat.length)) := by
        simp [jsSplitF, hfo]
      have hlast : (jsSplitF pat (n + 1) s).getLastD [] =
          (jsSplitF pat n (s.drop (i + pat.length))).getLastD [] := by
        rw [hsplit]
        cases hr : jsSplitF pat n (s.drop (i + pat.length)) with
        | nil => exact absurd hr hne
        | cons a t => rfl
      have hdecomp := firstOccur_decomp pat s i hfo
      refine ⟨by rw [hlast]; exact ihA, ?_, ?_⟩
      · intro _
        rcases Nat.lt_or_ge (jsSplitF pat n (s.drop (i + pat.length))).length 2 with hr1 | hr2
        · have hpos : 0 < (jsSplitF pat n (s.drop (i + pat.length))).length :=
            List.length_pos.2 hne
          have hlen1 : (jsSplitF pat n (s.drop (i + pat.length))).length = 1 := by omega
          refine ⟨s.take i, ?_⟩
          rw [hlast, ihC hlen1]
          exact hdecomp
        · rcases ihB hr2 with ⟨pre', hpre⟩
          refine ⟨s.take i ++ pat ++ pre', ?_⟩
          rw [hlast]
          calc s = s.take i ++ pat ++ s.drop (i + pat.length) := hdecomp
            _ = s.take i ++ pat ++
                  (pre' ++ pat ++ (jsSplitF pat n (s.drop (i + pat.length))).getLastD []) := by
                rw [← hpre]
            _ = s.take i ++ pat ++ pre' ++ pat ++
                  (jsSplitF pat n (s.drop (i + pat.length))).getLastD [] := by
                simp [List.append_assoc]
      · intro hl1
        rw [hsplit] at hl1
        simp only [List.length_cons, Nat.add_left_inj, Nat.succ.injEq] at hl1
        exact absurd (List.length_eq_zero.1 (by omega)) hne

theorem jsSplit_eq_of_ne (s pat : List Char) (hpat : pat ≠ []) :
    jsSplit s pat = jsSplitF pat (s.length + 1) s := by
  simp [jsSplit, hpat]

theorem jsSplit_last_decomp (s pat : List Char) (hpat : pat ≠ [])
    (hlen : 2 ≤ (jsSplit s pat).length) :
    (∃ pre, s = pre ++ pat ++ (jsSplit s pat).getLastD []) ∧
    jsIncludes ((jsSplit s pat).getLastD []) pat = false := by
  obtain ⟨hA, hB, _⟩ := jsSplitF_main pat hpat (s.length + 1) s (by omega)
  rw [jsSplit_eq_of_ne s pat hpat] at hlen ⊢
  exact ⟨hB hlen, hA⟩

theorem jsSplit_headD_of_occur (s pat : List Char) (i : Nat) (hpat : pat ≠ [])
    (hfo : firstOccur pat s = some i) :
    (jsSplit s pat).headD [] = s.take i := by
  rw [jsSplit_eq_of_ne s pat hpat]
  simp [jsSplitF, hfo]

theorem jsIncludes_of_jsSplit_length (s pat : List Char) (hpat : pat ≠ [])
    (hlen : 2 ≤ (jsSplit s pat).length) : jsIncludes s pat = true := by
  cases hfo : firstOccur pat s with
  | some i => exact jsIncludes_of_firstOccur s pat i hfo
  | none =>
    rw [jsSplit_eq_of_ne s pat hpat] at hlen
    simp [jsSplitF, hfo] at hlen

/-! ## C10: multiple occurrences of the trigger phrases -/

/-- C10: when the wake phrase occurs more than once in a transcript
received while asleep, the candidate utterance is the trimmed final
segment of the left-to-right split — the text after the last scanned
occurrence of the wake phrase (it follows an occurrence and contains no
further one), everything before or between occurrences being discarded;
symmetrically, when the sleep phrase occurs more than once while awake,
only the trimmed text before the first occurrence is considered. -/
theorem multiple_occurrence_segments :
    (∀ (w sw raw : List Char) (es : List MicEvent),
      w ≠ [] →
      (runMic es).state = .SLEEPING →
      3 ≤ (jsSplit (jsTrim (jsToLower raw)) w).length →
      ((handleResult w sw (runMic es) raw true).forwarded =
        (if !(jsTrim ((jsSplit (jsTrim (jsToLower raw)) w).getLastD [])).isEmpty &&
            !(jsIncludes (jsTrim ((jsSplit (jsTrim (jsToLower raw)) w).getLastD [])) sw)
         then [jsTrim ((jsSplit (jsTrim (jsToLower raw)) w).getLastD [])] else []) ∧
       (∃ pre, jsTrim (jsToLower raw) =
          pre ++ w ++ (jsSplit (jsTrim (jsToLower raw)) w).getLastD []) ∧
       jsIncludes ((jsSplit (jsTrim (jsToLower raw)) w).getLastD []) w = false)) ∧
    (∀ (w sw raw : List Char) (m : MicMachine),
      sw ≠ [] →
      m.state = .AWAKE →
      3 ≤ (jsSplit (jsTrim (jsToLower raw)) sw).length →
      ((handleResult w sw m raw true).forwarded =
        (if !(jsTrim ((jsSplit (jsTrim (jsToLower raw)) sw).headD [])).isEmpty &&
            !(jsIncludes (jsTrim ((jsSplit (jsTrim (jsToLower raw)) sw).headD [])) w)
         then [jsTrim ((jsSplit (jsTrim (jsToLower raw)) sw).headD [])] else []) ∧
       (∃ i, firstOccur sw (jsTrim (jsToLower raw)) = some i ∧
          (jsSplit (jsTrim (jsToLower raw)) sw).headD [] =
            (jsTrim (jsToLower raw)).take i ∧
          ∀ j < i, sw.isPrefixOf ((jsTrim (jsToLower raw)).drop j) = false))) := by
  constructor
  · intro w sw raw es hpat hs hlen
    have hw : jsIncludes (jsTrim (jsToLower raw)) w = true :=
      jsIncludes_of_jsSplit_length _ w hpat (by omega)
    have hna : ((runMic es).state == MicState.AWAKE) = false := by rw [hs]; rfl
    have hb := handleResult_asleep_wake_branch w sw raw (runMic es) hna hw
    have hd := jsSplit_last_decomp (jsTrim (jsToLower raw)) w hpat (by omega)
    exact ⟨hb.2, hd.1, hd.2⟩
  · intro w sw raw m hpat hs hlen
    have hw : jsIncludes (jsTrim (jsToLower raw)) sw = true :=
      jsIncludes_of_jsSplit_length _ sw hpat (by omega)
    have hb := handleResult_awake_sleep_branch w sw raw m hs hw
    rcases Option.isSome_iff_exists.mp hw with ⟨i, hfo⟩
    refine ⟨by rw [hb], i, hfo, jsSplit_headD_of_occur _ sw i hpat hfo,
      firstOccur_minimal sw _ i hfo⟩

/-- Witness for `multiple_occurrence_segments` on the transcripts
"hey baby hey baby bottle" (wake phrase twice) and
"done sleep now sleep" (sleep phrase twice). -/
theorem multiple_occurrence_segments_witness :
    ((handleResult ("hey baby".toList) ("sleep".toList)
        (runMic [MicEvent.ENABLE, MicEvent.PERMISSION_GRANTED])
        ("hey baby hey baby bottle".toList) true).forwarded = ["bottle".toList] ∧
     (∃ pre, jsTrim (jsToLower ("hey baby hey baby bottle".toList)) =
        pre ++ "hey baby".toList ++
          (jsSplit (jsTrim (jsToLower ("hey baby hey baby bottle".toList)))
            ("hey baby".toList)).getLastD [])) ∧
    ((handleResult ("hey baby".toList) ("sleep".toList)
        (runMic [MicEvent.ENABLE, MicEvent.PERMISSION_GRANTED, MicEvent.WAKE])
        ("done sleep now sleep".toList) true).forwarded = ["done".toList] ∧
     (∃ i, firstOccur ("sleep".toList)
          (jsTrim (jsToLower ("done sleep now sleep".toList))) = some i ∧
        ∀ j < i, ("sleep".toList).isPrefixOf
          ((jsTrim (jsToLower ("done sleep now sleep".toList))).drop j) = false)) := by
  have hA := multiple_occurrence_segments.1 ("hey baby".toList) ("sleep".toList)
    ("hey baby hey baby bottle".toList) [MicEvent.ENABLE, MicEvent.PERMISSION_GRANTED]
    (by decide) (by decide) (by decide)
  have hB := multiple_occurrence_segments.2 ("hey baby".toList) ("sleep".toList)
    ("done sleep now sleep".toList)
    (runMic [MicEvent.ENABLE, MicEvent.PERMISSION_GRANTED, MicEvent.WAKE])
    (by decide) (by decide) (by decide)
  refine ⟨⟨by rw [hA.1]; decide, hA.2.1⟩, by rw [hB.1]; decide, ?_⟩
  rcases hB.2 with ⟨i, hfo, _, hmin⟩
  exact ⟨i, hfo, hmin⟩

/-! ## C3: restart behaviour after unexpected session end -/

/-- C3 counterexample: four consecutive immediate session-end events
(each giving its 100 ms restart timer the chance to fire) yield exactly
one restart attempt — not three — and raise no error at all: the code
contains no restart rate limiter and no UnstableRecognitionError, and
because the stored timer handle is never cleared once it has fired,
`handleEnd`'s `!this.restartTimeout` guard blocks every later
auto-restart. -/
theorem restart_not_rate_limited :
    (recRun [RecStep.endEvt, RecStep.timerFire, RecStep.endEvt, RecStep.timerFire,
        RecStep.endEvt, RecStep.timerFire, RecStep.endEvt, RecStep.timerFire]).restarts = 1 ∧
    ¬ ((recRun [RecStep.endEvt, RecStep.timerFire, RecStep.endEvt, RecStep.timerFire,
        RecStep.endEvt, RecStep.timerFire, RecStep.endEvt, RecStep.timerFire]).restarts = 3) ∧
    (recRun [RecStep.endEvt, RecStep.timerFire, RecStep.endEvt, RecStep.timerFire,
        RecStep.endEvt, RecStep.timerFire, RecStep.endEvt, RecStep.timerFire]).raisedErrors
      = [] := by
  decide

theorem recInv_step (s : RecState) (st : RecStep)
    (h1 : s.restartHandle = false → s.timerPending = false ∧ s.restarts = 0)
    (h2 : s.restarts + (if s.timerPending then 1 else 0) ≤ 1)
    (h3 : s.raisedErrors = []) :
    ((recStep s st).restartHandle = false →
      (recStep s st).timerPending = false ∧ (recStep s st).restarts = 0) ∧
    ((recStep s st).restarts + (if (recStep s st).timerPending then 1 else 0) ≤ 1) ∧
    (recStep s st).raisedErrors = [] := by
  obtain ⟨rh, tp, ra, md, dl, rs, er⟩ := s
  cases st <;> cases rh <;> cases tp <;> cases md <;> cases ra <;> cases dl <;>
    simp_all [recStep]

theorem recInv_run (steps : List RecStep) (s : RecState)
    (h1 : s.restartHandle = false → s.timerPending = false ∧ s.restarts = 0)
    (h2 : s.restarts + (if s.timerPending then 1 else 0) ≤ 1)
    (h3 : s.raisedErrors = []) :
    ((steps.foldl recStep s).restartHandle = false →
      (steps.foldl recStep s).timerPending = false ∧ (steps.foldl recStep s).restarts = 0) ∧
    ((steps.foldl recStep s).restarts +
      (if (steps.foldl recStep s).timerPending then 1 else 0) ≤ 1) ∧
    (steps.foldl recStep s).raisedErrors = [] := by
  induction steps generalizing s with
  | nil => exact ⟨h1, h2, h3⟩
  | cons st rest ih =>
    obtain ⟨a, b, c⟩ := recInv_step s st h1 h2 h3
    exact ih _ a b c

/-- C3 (amended): the end-of-session path performs no rate limiting at
all. Restarting is gated on no stored restart-timer handle, and the
handle is never cleared when the timer fires, so any sequence of
session-end events and restart-timer firings from a running listener
produces at most one restart attempt and raises no error whatsoever —
in particular never an UnstableRecognitionError, which does not exist
in the code. -/
theorem restart_single_shot (steps : List RecStep) :
    (recRun steps).restarts ≤ 1 ∧ (recRun steps).raisedErrors = [] := by
  obtain ⟨a, b, c⟩ := recInv_run steps recInit (by simp [recInit]) (by simp [recInit]) rfl
  refine ⟨?_, c⟩
  rw [recRun]
  split at b <;> omega

/-! ## C7: debounce coalescing -/

/-- C7: two utterance fragments delivered less than 150 ms apart produce
exactly one extraction attempt, whose input text is the two fragments in
insertion order joined by a single space. -/
theorem debounce_coalesces (a b : String) (t1 t2 : Nat)
    (h12 : t1 ≤ t2) (hlt : t2 < t1 + 150) :
    (debounceRun [(t1, a), (t2, b)] initDebounce).attempts = [a ++ " " ++ b] := by
  have hnotdue : ¬ (t1 + 150 ≤ t2) := by omega
  simp [debounceRun, debounceDue, debouncePush, debounceFire, initDebounce, hnotdue, joinSp]

/-- Witness for `debounce_coalesces`: "bottle" at 0 ms and "sixty ml" at
100 ms coalesce into the single attempt "bottle sixty ml". -/
theorem debounce_coalesces_witness :
    (debounceRun [(0, "bottle"), (100, "sixty ml")] initDebounce).attempts
      = ["bottle sixty ml"] := by
  have h := debounce_coalesces "bottle" "sixty ml" 0 100 (by omega) (by omega)
  rw [h]
  decide

/-! ## Helper lemmas: StructuredVoiceLogger -/

theorem svlInvB_iff {α : Type} (s : SVLState α) :
    SVLInvB s = true ↔
      ∀ p ∈ s.pending,
        s.cancelledIds.contains p.1 = true ∨ s.activeRequest = some p.1 := by
  simp [SVLInvB, List.all_eq_true, Bool.or_eq_true, beq_iff_eq]

theorem svlStep_resolve_skip {α : Type} (json5 : String → Except String α)
    (fence : String → Option String) (truthy : α → Bool) (s : SVLState α)
    (id : Nat) (out : NetOutcome)
    (hg : s.pending.any (fun p => p.1 == id) = false) :
    svlStep json5 fence truthy s (.resolve id out) = s := by
  simp [svlStep, hg]

theorem svlStep_resolve_core {α : Type} (json5 : String → Except String α)
    (fence : String → Option String) (truthy : α → Bool) (s : SVLState α)
    (id : Nat) (out : NetOutcome)
    (hg : s.pending.any (fun p => p.1 == id) = true) :
    (svlStep json5 fence truthy s (.resolve id out)).pending =
      s.pending.filter (fun p => !(p.1 == id)) ∧
    (svlStep json5 fence truthy s (.resolve id out)).cancelledIds = s.cancelledIds ∧
    (svlStep json5 fence truthy s (.resolve id out)).activeRequest =
      (if s.activeRequest == some id then none else s.activeRequest) ∧
    (svlStep json5 fence truthy s (.resolve id out)).nextId = s.nextId := by
  cases out with
  | rejected msg => simp [svlStep, hg]
  | fulfilled r =>
    cases hc : s.cancelledIds.contains id with
    | true =>
      have hcm : id ∈ s.cancelledIds := by simpa using hc
      simp [svlStep, hg, hcm]
    | false =>
      have hcm : id ∉ s.cancelledIds := by simpa using hc
      cases hp : parseResponse json5 fence r with
      | ok v => simp [svlStep, hg, hcm, hp]
      | error m => simp [svlStep, hg, hcm, hp]

theorem svlStep_resolve_cancelled {α : Type} (json5 : String → Except String α)
    (fence : String → Option String) (truthy : α → Bool) (s : SVLState α)
    (id : Nat) (out : NetOutcome) (hc : s.cancelledIds.contains id = true) :
    (svlStep json5 fence truthy s (.resolve id out)).textBuffer = s.textBuffer ∧
    ((svlStep json5 fence truthy s (.resolve id out)).emits = s.emits ∨
      ∃ msg, (svlStep json5 fence truthy s (.resolve id out)).emits =
        s.emits ++ [(id, SVLEmit.errored msg)]) := by
  cases hg : s.pending.any (fun p => p.1 == id) with
  | false => rw [svlStep_resolve_skip json5 fence truthy s id out hg]; exact ⟨rfl, Or.inl rfl⟩
  | true =>
    cases out with
    | rejected msg =>
      exact ⟨by simp [svlStep, hg], Or.inr ⟨msg, by simp [svlStep, hg]⟩⟩
    | fulfilled r =>
      have hcm : id ∈ s.cancelledIds := by simpa using hc
      exact ⟨by simp [svlStep, hg, hcm], Or.inl (by simp [svlStep, hg, hcm])⟩

theorem svlInvB_step {α : Type} (json5 : String → Except String α)
    (fence : String → Option String) (truthy : α → Bool)
    (s : SVLState α) (st : SVLStep) (h : SVLInvB s = true) :
    SVLInvB (svlStep json5 fence truthy s st) = true := by
  rw [svlInvB_iff] at h ⊢
  cases st with
  | push frag => exact h
  | fire =>
    by_cases hb : s.textBuffer = []
    · simpa [svlStep, hb] using h
    · intro p hp
      simp only [svlStep, if_neg hb] at hp ⊢
      rcases List.mem_append.1 hp with hp' | hp'
      · rcases h p hp' with hc | hact
        · have hcm : p.1 ∈ s.cancelledIds := by simpa using hc
          refine Or.inl ?_
          cases ha : s.activeRequest with
          | none => simpa using hcm
          | some a => simp [hcm]
        · refine Or.inl ?_
          rw [hact]
          simp
      · simp only [List.mem_singleton] at hp'
        subst hp'
        exact Or.inr rfl
  | resolve id out =>
    cases hg : s.pending.any (fun p => p.1 == id) with
    | false => rw [svlStep_resolve_skip json5 fence truthy s id out hg]; exact h
    | true =>
      obtain ⟨hpend, hcan, hact, _⟩ := svlStep_resolve_core json5 fence truthy s id out hg
      intro p hp
      rw [hpend] at hp
      rw [hcan, hact]
      obtain ⟨hpmem, hpne⟩ := List.mem_filter.1 hp
      have hne : p.1 ≠ id := by simpa using hpne
      rcases h p hpmem with hc | ha
      · exact Or.inl hc
      · cases hai : (s.activeRequest == some id) with
        | true =>
          have hacteq : s.activeRequest = some id := by simpa using hai
          rw [hacteq] at ha
          exact absurd (Option.some.inj ha).symm hne
        | false => simpa using Or.inr ha

theorem svlInvB_run {α : Type} (json5 : String → Except String α)
    (fence : String → Option String) (truthy : α → Bool)
    (steps : List SVLStep) (s : SVLState α) (h : SVLInvB s = true) :
    SVLInvB (svlRun json5 fence truthy steps s) = true := by
  induction steps generalizing s with
  | nil => exact h
  | cons st rest ih => exact ih _ (svlInvB_step json5 fence truthy s st h)

/-! ## C1: cancellation of superseded extraction attempts -/

/-- C1 counterexample: fragment "a" fires attempt 0; fragment "b" fires
attempt 1, marking attempt 0's token cancelled while its network call is
still in flight; attempt 0's call then rejects, and — because the
rejection carries no `cancelled` flag — the catch in `tryProcessBuffer`
surfaces it through `onError` on behalf of the cancelled first attempt,
contradicting the claim that the first attempt never invokes
`onStructuredData` or `onError`. -/
theorem cancelled_attempt_error_surfaces :
    ((svlRun (fun _ => Except.ok true) (fun _ => none) (fun b => b)
        [SVLStep.push "a", SVLStep.fire, SVLStep.push "b", SVLStep.fire]
        initSVL).cancelledIds.contains 0 = true ∧
     (0, "a") ∈ (svlRun (fun _ => Except.ok true) (fun _ => none) (fun b => b)
        [SVLStep.push "a", SVLStep.fire, SVLStep.push "b", SVLStep.fire]
        initSVL).pending) ∧
    (svlRun (fun _ => Except.ok true) (fun _ => none) (fun b => b)
        [SVLStep.push "a", SVLStep.fire, SVLStep.push "b", SVLStep.fire,
         SVLStep.resolve 0 (NetOutcome.rejected "network failure")]
        initSVL).emits = [(0, SVLEmit.errored "network failure")] := by
  decide

/-- C1 (amended): every firing cancels the previously active token before
creating its own, so at most one non-cancelled extraction attempt is in
flight at any time; a cancelled attempt never invokes
`onStructuredData` and never clears the buffer — if its network call
fulfils, its resolution is discarded entirely — but if its network call
rejects, the rejection error is still surfaced through `onError`. -/
theorem single_live_attempt {α : Type} (json5 : String → Except String α)
    (fence : String → Option String) (truthy : α → Bool) (steps : List SVLStep) :
    (∀ p ∈ (svlRun json5 fence truthy steps initSVL).pending,
      ∀ q ∈ (svlRun json5 fence truthy steps initSVL).pending,
      p.1 ≠ q.1 →
      (svlRun json5 fence truthy steps initSVL).cancelledIds.contains p.1 = true ∨
      (svlRun json5 fence truthy steps initSVL).cancelledIds.contains q.1 = true) ∧
    (∀ (s : SVLState α) (id : Nat) (r : String),
      s.cancelledIds.contains id = true →
      (svlStep json5 fence truthy s (.resolve id (.fulfilled r))).emits = s.emits ∧
      (svlStep json5 fence truthy s (.resolve id (.fulfilled r))).textBuffer
        = s.textBuffer) ∧
    (∀ (s : SVLState α) (id : Nat) (out : NetOutcome),
      s.cancelledIds.contains id = true →
      (svlStep json5 fence truthy s (.resolve id out)).emits = s.emits ∨
      ∃ msg, (svlStep json5 fence truthy s (.resolve id out)).emits =
        s.emits ++ [(id, SVLEmit.errored msg)]) := by
  refine ⟨?_, ?_, ?_⟩
  · have hinv := (svlInvB_iff _).1 (svlInvB_run json5 fence truthy steps initSVL rfl)
    intro p hp q hq hne
    rcases hinv p hp with hc | ha
    · exact Or.inl hc
    · rcases hinv q hq with hc' | ha'
      · exact Or.inr hc'
      · rw [ha] at ha'
        exact absurd (Option.some.inj ha') hne
  · intro s id r hc
    have h := svlStep_resolve_cancelled json5 fence truthy s id (.fulfilled r) hc
    refine ⟨?_, h.1⟩
    rcases h.2 with he | ⟨msg, he⟩
    · exact he
    · -- a fulfilled resolution of a cancelled attempt never emits:
      -- the errored case cannot arise on the fulfilled path
      cases hg : s.pending.any (fun p => p.1 == id) with
      | false => rw [svlStep_resolve_skip json5 fence truthy s id _ hg]
      | true =>
        have hcm : id ∈ s.cancelledIds := by simpa using hc
        simp [svlStep, hg, hcm]
  · intro s id out hc
    exact (svlStep_resolve_cancelled json5 fence truthy s id out hc).2

/-- Witness for `single_live_attempt`: after "a"/fire/"b"/fire the token
of attempt 0 is cancelled, and resolving its fulfilled network call emits
nothing. -/
theorem single_live_attempt_witness :
    ((svlRun (fun _ => Except.ok true) (fun _ => none) (fun b => b)
        [SVLStep.push "a", SVLStep.fire, SVLStep.push "b", SVLStep.fire]
        initSVL).cancelledIds.contains 0 = true) ∧
    ((svlStep (fun _ => Except.ok true) (fun _ => none) (fun b => b)
        (svlRun (fun _ => Except.ok true) (fun _ => none) (fun b => b)
          [SVLStep.push "a", SVLStep.fire, SVLStep.push "b", SVLStep.fire] initSVL)
        (SVLStep.resolve 0 (NetOutcome.fulfilled "resp"))).emits =
      (svlRun (fun _ => Except.ok true) (fun _ => none) (fun b => b)
        [SVLStep.push "a", SVLStep.fire, SVLStep.push "b", SVLStep.fire]
        initSVL).emits) := by
  have hc : (svlRun (fun _ => Except.ok true) (fun _ => none) (fun b => b)
      [SVLStep.push "a", SVLStep.fire, SVLStep.push "b", SVLStep.fire]
      initSVL).cancelledIds.contains 0 = true := by decide
  exact ⟨hc, ((single_live_attempt (fun _ => Except.ok true) (fun _ => none) (fun b => b)
    [SVLStep.push "a", SVLStep.fire, SVLStep.push "b", SVLStep.fire]).2.1
    _ 0 "resp" hc).1⟩

/-! ## C9: a cancelled attempt loses no buffered fragment -/

theorem svlStepPres {α : Type} (json5 : String → Except String α)
    (fence : String → Option String) (truthy : α → Bool)
    (A : Nat) (tA : String) (b : List String)
    (st : SVLStep) (hst : stepAvoids A st = true) (t : SVLState α)
    (h1 : t.activeRequest = some A) (h2 : (A, tA) ∈ t.pending)
    (h3 : ∃ extra, t.textBuffer = b ++ extra)
    (h4 : ∀ p ∈ t.pending, p.1 = A ∨ t.cancelledIds.contains p.1 = true) :
    (svlStep json5 fence truthy t st).activeRequest = some A ∧
    (A, tA) ∈ (svlStep json5 fence truthy t st).pending ∧
    (∃ extra, (svlStep json5 fence truthy t st).textBuffer = b ++ extra) ∧
    (∀ p ∈ (svlStep json5 fence truthy t st).pending,
      p.1 = A ∨ (svlStep json5 fence truthy t st).cancelledIds.contains p.1 = true) := by
  cases st with
  | push frag =>
    rcases h3 with ⟨extra, hex⟩
    exact ⟨h1, h2, ⟨extra ++ [frag], by simp [svlStep, hex]⟩, h4⟩
  | fire => simp [stepAvoids] at hst
  | resolve id out =>
    have hidA : id ≠ A := by simpa [stepAvoids] using hst
    cases hg : t.pending.any (fun p => p.1 == id) with
    | false =>
      rw [svlStep_resolve_skip json5 fence truthy t id out hg]
      exact ⟨h1, h2, h3, h4⟩
    | true =>
      obtain ⟨hpend, hcan, hact, _⟩ := svlStep_resolve_core json5 fence truthy t id out hg
      have hcanc : t.cancelledIds.contains id = true := by
        rcases List.any_eq_true.1 hg with ⟨p, hp, hpid⟩
        have hpid' : p.1 = id := by simpa using hpid
        rcases h4 p hp with hA | hc
        · exact absurd (hpid'.symm.trans hA) hidA
        · exact hpid' ▸ hc
      have hane : t.activeRequest ≠ some id := by
        rw [h1]
        simpa using Ne.symm hidA
      have hane' : (t.activeRequest == some id) = false := by simpa using hane
      refine ⟨?_, ?_, ?_, ?_⟩
      · rw [hact, hane']
        simpa using h1
      · rw [hpend]
        exact List.mem_filter.2 ⟨h2, by simpa using Ne.symm hidA⟩
      · rcases h3 with ⟨extra, hex⟩
        exact ⟨extra,
          by rw [(svlStep_resolve_cancelled json5 fence truthy t id out hcanc).1, hex]⟩
      · intro p hp
        rw [hpend] at hp
        rw [hcan]
        exact h4 p (List.mem_filter.1 hp).1

theorem svlMidRun {α : Type} (json5 : String → Except String α)
    (fence : String → Option String) (truthy : α → Bool)
    (A : Nat) (tA : String) (b : List String) (mid : List SVLStep)
    (hmid : mid.all (stepAvoids A) = true) (t : SVLState α)
    (h1 : t.activeRequest = some A) (h2 : (A, tA) ∈ t.pending)
    (h3 : ∃ extra, t.textBuffer = b ++ extra)
    (h4 : ∀ p ∈ t.pending, p.1 = A ∨ t.cancelledIds.contains p.1 = true) :
    (svlRun json5 fence truthy mid t).activeRequest = some A ∧
    (A, tA) ∈ (svlRun json5 fence truthy mid t).pending ∧
    (∃ extra, (svlRun json5 fence truthy mid t).textBuffer = b ++ extra) ∧
    (∀ p ∈ (svlRun json5 fence truthy mid t).pending,
      p.1 = A ∨ (svlRun json5 fence truthy mid t).cancelledIds.contains p.1 = true) := by
  induction mid generalizing t with
  | nil => exact ⟨h1, h2, h3, h4⟩
  | cons st rest ih =>
    simp only [List.all_cons, Bool.and_eq_true] at hmid
    obtain ⟨a, b', c, d⟩ := svlStepPres json5 fence truthy A tA b st hmid.1 t h1 h2 h3 h4
    exact ih hmid.2 _ a b' c d

theorem svlStep_fire_facts {α : Type} (json5 : String → Except String α)
    (fence : String → Option String) (truthy : α → Bool) (u : SVLState α)
    (hbu : u.textBuffer ≠ []) :
    (svlStep json5 fence truthy u .fire).pending
      = u.pending ++ [(u.nextId, joinSp u.textBuffer)] ∧
    ∀ a, u.activeRequest = some a →
      (svlStep json5 fence truthy u .fire).cancelledIds.contains a = true := by
  constructor
  · simp [svlStep, hbu]
  · intro a ha
    simp [svlStep, hbu, ha]

/-- C9: when a later debounce firing supersedes attempt `s.nextId`
(fired from a state satisfying the logger invariant and still unresolved
throughout `mid`), every fragment buffered for the superseded attempt is
still in the buffer at the superseding firing — the buffer only grows in
between — so the superseding attempt's joined input covers all of the
cancelled attempt's fragments, and a cancelled attempt's own resolution
never clears the buffer. -/
theorem cancelled_attempt_preserves_fragments {α : Type}
    (json5 : String → Except String α) (fence : String → Option String)
    (truthy : α → Bool) (s : SVLState α) (mid : List SVLStep)
    (hInv : SVLInvB s = true) (hb : s.textBuffer ≠ [])
    (hmid : mid.all (stepAvoids s.nextId) = true) :
    (s.nextId, joinSp s.textBuffer) ∈
      (svlRun json5 fence truthy mid (svlStep json5 fence truthy s .fire)).pending ∧
    (∃ extra,
      (svlRun json5 fence truthy mid (svlStep json5 fence truthy s .fire)).textBuffer
        = s.textBuffer ++ extra) ∧
    (∀ f ∈ s.textBuffer, f ∈
      (svlRun json5 fence truthy mid (svlStep json5 fence truthy s .fire)).textBuffer) ∧
    (svlStep json5 fence truthy
        (svlRun json5 fence truthy mid (svlStep json5 fence truthy s .fire))
        .fire).cancelledIds.contains s.nextId = true ∧
    ((svlRun json5 fence truthy mid (svlStep json5 fence truthy s .fire)).nextId,
      joinSp (svlRun json5 fence truthy mid
        (svlStep json5 fence truthy s .fire)).textBuffer) ∈
      (svlStep json5 fence truthy
        (svlRun json5 fence truthy mid (svlStep json5 fence truthy s .fire))
        .fire).pending ∧
    (∀ (s' : SVLState α) (id : Nat) (out : NetOutcome),
      s'.cancelledIds.contains id = true →
      (svlStep json5 fence truthy s' (.resolve id out)).textBuffer = s'.textBuffer) := by
  have hinv := (svlInvB_iff s).1 hInv
  have h1 : (svlStep json5 fence truthy s .fire).activeRequest = some s.nextId := by
    simp [svlStep, hb]
  have h2 : (s.nextId, joinSp s.textBuffer) ∈ (svlStep json5 fence truthy s .fire).pending := by
    simp [svlStep, hb]
  have h3 : ∃ extra, (svlStep json5 fence truthy s .fire).textBuffer
      = s.textBuffer ++ extra := ⟨[], by simp [svlStep, hb]⟩
  have h4 : ∀ p ∈ (svlStep json5 fence truthy s .fire).pending,
      p.1 = s.nextId ∨
        (svlStep json5 fence truthy s .fire).cancelledIds.contains p.1 = true := by
    intro p hp
    simp only [svlStep, if_neg hb] at hp ⊢
    rcases List.mem_append.1 hp with hp' | hp'
    · rcases hinv p hp' with hc | hact
      · have hcm : p.1 ∈ s.cancelledIds := by simpa using hc
        refine Or.inr ?_
        cases ha : s.activeRequest with
        | none => simpa using hcm
        | some a => simp [hcm]
      · refine Or.inr ?_
        rw [hact]
        simp
    · simp only [List.mem_singleton] at hp'
      subst hp'
      exact Or.inl rfl
  obtain ⟨H1, H2, H3, H4⟩ := svlMidRun json5 fence truthy s.nextId (joinSp s.textBuffer)
    s.textBuffer mid hmid _ h1 h2 h3 h4
  rcases H3 with ⟨extra, hex⟩
  have hb2 : (svlRun json5 fence truthy mid
      (svlStep json5 fence truthy s .fire)).textBuffer ≠ [] := by
    rw [hex]
    intro hcontra
    exact hb (List.append_eq_nil.1 hcontra).1
  refine ⟨H2, ⟨extra, hex⟩, ?_, ?_, ?_, ?_⟩
  · intro f hf
    rw [hex]
    exact List.mem_append.2 (Or.inl hf)
  · exact (svlStep_fire_facts json5 fence truthy _ hb2).2 s.nextId H1
  · rw [(svlStep_fire_facts json5 fence truthy _ hb2).1]
    exact List.mem_append.2 (Or.inr (by simp))
  · intro s' id out hc
    exact (svlStep_resolve_cancelled json5 fence truthy s' id out hc).1

/-- Witness for `cancelled_attempt_preserves_fragments`: fragment
"bottle" fires attempt 0; "sixty ml" arrives while it is in flight; the
superseding firing still sees "bottle" in the buffer. -/
theorem cancelled_attempt_preserves_fragments_witness :
    SVLInvB (svlRun (fun _ => (Except.ok true : Except String Bool)) (fun _ => none)
      (fun b => b) [SVLStep.push "bottle"] initSVL) = true ∧
    (0, joinSp ["bottle"]) ∈
      (svlRun (fun _ => (Except.ok true : Except String Bool)) (fun _ => none) (fun b => b)
        [SVLStep.push "sixty ml"]
        (svlStep (fun _ => (Except.ok true : Except String Bool)) (fun _ => none)
          (fun b => b)
          (svlRun (fun _ => (Except.ok true : Except String Bool)) (fun _ => none)
            (fun b => b) [SVLStep.push "bottle"] initSVL) SVLStep.fire)).pending := by
  refine ⟨by decide, ?_⟩
  have h := cancelled_attempt_preserves_fragments
    (fun _ => (Except.ok true : Except String Bool)) (fun _ => none) (fun b => b)
    (svlRun (fun _ => (Except.ok true : Except String Bool)) (fun _ => none) (fun b => b)
      [SVLStep.push "bottle"] initSVL)
    [SVLStep.push "sixty ml"] (by decide) (by decide) (by decide)
  exact h.1

/-! ## C8: failed extraction attempts -/

/-- C8: when a non-cancelled in-flight attempt resolves and parsing
fails, the text buffer is left unchanged and `onError` is invoked with a
message that carries the raw response text; a rejected (service-error)
resolution also leaves the buffer unchanged; and if the buffer was the
failed attempt's input, the next firing creates an attempt on the
identical joined text, without duplication. -/
theorem failed_extraction_preserves_buffer {α : Type}
    (json5 : String → Except String α) (fence : String → Option String)
    (truthy : α → Bool) (s : SVLState α) (id : Nat) (r msg : String)
    (hp : s.pending.any (fun p => p.1 == id) = true)
    (hnc : s.cancelledIds.contains id = false)
    (hparse : json5 ((fence r).getD r) = .error msg) :
    (svlStep json5 fence truthy s (.resolve id (.fulfilled r))).textBuffer
      = s.textBuffer ∧
    (svlStep json5 fence truthy s (.resolve id (.fulfilled r))).emits
      = s.emits ++ [(id, SVLEmit.errored
          ("Failed to parse LLM response: " ++ msg ++ "\nResponse was: " ++ r))] ∧
    (∃ pre : String,
      "Failed to parse LLM response: " ++ msg ++ "\nResponse was: " ++ r = pre ++ r) ∧
    (∀ e : String,
      (svlStep json5 fence truthy s (.resolve id (.rejected e))).textBuffer
        = s.textBuffer) ∧
    (s.textBuffer ≠ [] →
      ((svlStep json5 fence truthy s (.resolve id (.fulfilled r))).nextId,
          joinSp s.textBuffer) ∈
        (svlStep json5 fence truthy
          (svlStep json5 fence truthy s (.resolve id (.fulfilled r))) .fire).pending) := by
  have hcm : id ∉ s.cancelledIds := by simpa using hnc
  have hpr : parseResponse json5 fence r = Except.error
      ("Failed to parse LLM response: " ++ msg ++ "\nResponse was: " ++ r) := by
    simp [parseResponse, hparse]
  have htb : (svlStep json5 fence truthy s (.resolve id (.fulfilled r))).textBuffer
      = s.textBuffer := by
    simp [svlStep, hp, hcm, hpr]
  refine ⟨htb, ?_, ?_, ?_, ?_⟩
  · simp [svlStep, hp, hcm, hpr]
  · exact ⟨"Failed to parse LLM response: " ++ msg ++ "\nResponse was: ",
      by simp [String.append_assoc]⟩
  · intro e
    simp [svlStep, hp]
  · intro hb
    have hb' : (svlStep json5 fence truthy s (.resolve id (.fulfilled r))).textBuffer
        ≠ [] := by rw [htb]; exact hb
    rw [(svlStep_fire_facts json5 fence truthy _ hb').1, htb]
    exact List.mem_append.2 (Or.inr (by simp))

/-- Witness for `failed_extraction_preserves_buffer`: attempt 0 on
"bottle" fulfils with an unparseable response; the buffer keeps
["bottle"] and the error message ends with the raw response. -/
theorem failed_extraction_preserves_buffer_witness :
    (svlStep (fun _ => (Except.error "boom" : Except String Bool)) (fun _ => none)
        (fun b => b)
        (svlRun (fun _ => (Except.error "boom" : Except String Bool)) (fun _ => none)
          (fun b => b) [SVLStep.push "bottle", SVLStep.fire] initSVL)
        (SVLStep.resolve 0 (NetOutcome.fulfilled "not json"))).textBuffer
      = (svlRun (fun _ => (Except.error "boom" : Except String Bool)) (fun _ => none)
          (fun b => b) [SVLStep.push "bottle", SVLStep.fire] initSVL).textBuffer ∧
    (svlStep (fun _ => (Except.error "boom" : Except String Bool)) (fun _ => none)
        (fun b => b)
        (svlRun (fun _ => (Except.error "boom" : Except String Bool)) (fun _ => none)
          (fun b => b) [SVLStep.push "bottle", SVLStep.fire] initSVL)
        (SVLStep.resolve 0 (NetOutcome.fulfilled "not json"))).emits
      = (svlRun (fun _ => (Except.error "boom" : Except String Bool)) (fun _ => none)
          (fun b => b) [SVLStep.push "bottle", SVLStep.fire] initSVL).emits ++
        [(0, SVLEmit.errored
          ("Failed to parse LLM response: " ++ "boom" ++ "\nResponse was: " ++ "not json"))] := by
  have h := failed_extraction_preserves_buffer
    (fun _ => (Except.error "boom" : Except String Bool)) (fun _ => none) (fun b => b)
    (svlRun (fun _ => (Except.error "boom" : Except String Bool)) (fun _ => none)
      (fun b => b) [SVLStep.push "bottle", SVLStep.fire] initSVL)
    0 "not json" "boom" (by decide) (by decide) rfl
  exact ⟨h.1, h.2.1⟩
